import Mathlib

/- Verification of the revm core excerpt: the spec registries (L1 and the
Optimism L2 flavor), the call-frame construction pipeline of `EvmContext`,
and the `DummyHost` test host, as a shallow embedding.

Embedded directly from the source files:
* crates/primitives/src/specification.rs : `SpecId`, `enabled`, the display
  name conversions;
* crates/optimism/src/lib.rs : the L2 `SpecId`, its `enabled`, and the lossy
  conversion back to the L1 registry;
* crates/revm/src/context/evm_context.rs : `EvmContext`, `set_precompiles`,
  `call_precompile`, `make_call_frame`;
* crates/interpreter/src/host/dummy.rs : `DummyHost` and its host methods.

`JournaledState`, `CallInputs`, `Gas`, `InstructionResult` and the precompile
registry live in crates that are not part of the excerpt; they are modelled
from the specification (sections 3, 4.3, 4.4 and 4.5). Each such definition
carries a doc comment starting with `Modelled from the spec:`. Machine
integers (U256, u64) are modelled as `Nat`; the operations verified here
never overflow their Rust types (balances are checked before subtraction,
gas is checked before recording). -/

/-- Hardfork identifiers of the L1 spec registry, in activation order
(specification.rs). -/
inductive SpecId where
  | FRONTIER
  | FRONTIER_THAWING
  | HOMESTEAD
  | DAO_FORK
  | TANGERINE
  | SPURIOUS_DRAGON
  | BYZANTIUM
  | CONSTANTINOPLE
  | PETERSBURG
  | ISTANBUL
  | MUIR_GLACIER
  | BERLIN
  | LONDON
  | ARROW_GLACIER
  | GRAY_GLACIER
  | MERGE
  | SHANGHAI
  | CANCUN
  | PRAGUE
  | LATEST
  deriving DecidableEq, Repr, Fintype

/-- The repr(u8) discriminant of each L1 `SpecId` variant
(`FRONTIER = 0`, ..., `PRAGUE = 18`, `LATEST = u8::MAX`). -/
def SpecId.toU8 : SpecId → Nat
  | .FRONTIER => 0
  | .FRONTIER_THAWING => 1
  | .HOMESTEAD => 2
  | .DAO_FORK => 3
  | .TANGERINE => 4
  | .SPURIOUS_DRAGON => 5
  | .BYZANTIUM => 6
  | .CONSTANTINOPLE => 7
  | .PETERSBURG => 8
  | .ISTANBUL => 9
  | .MUIR_GLACIER => 10
  | .BERLIN => 11
  | .LONDON => 12
  | .ARROW_GLACIER => 13
  | .GRAY_GLACIER => 14
  | .MERGE => 15
  | .SHANGHAI => 16
  | .CANCUN => 17
  | .PRAGUE => 18
  | .LATEST => 255

/-- `SpecId::enabled(our, other)` is `our as u8 >= other as u8`. -/
def SpecId.enabled (our other : SpecId) : Bool :=
  decide (other.toU8 ≤ our.toU8)

/-- `impl From<SpecId> for &'static str`: the canonical display name. -/
def SpecId.name : SpecId → String
  | .FRONTIER => "Frontier"
  | .FRONTIER_THAWING => "Frontier Thawing"
  | .HOMESTEAD => "Homestead"
  | .DAO_FORK => "DAO Fork"
  | .TANGERINE => "Tangerine"
  | .SPURIOUS_DRAGON => "Spurious"
  | .BYZANTIUM => "Byzantium"
  | .CONSTANTINOPLE => "Constantinople"
  | .PETERSBURG => "Petersburg"
  | .ISTANBUL => "Istanbul"
  | .MUIR_GLACIER => "MuirGlacier"
  | .BERLIN => "Berlin"
  | .LONDON => "London"
  | .ARROW_GLACIER => "Arrow Glacier"
  | .GRAY_GLACIER => "Gray Glacier"
  | .MERGE => "Merge"
  | .SHANGHAI => "Shanghai"
  | .CANCUN => "Cancun"
  | .PRAGUE => "Prague"
  | .LATEST => "Latest"

/-- `impl From<&str> for SpecId`: case-sensitive parse of a display name;
any name outside the table collapses to `LATEST`. -/
def SpecId.fromName : String → SpecId
  | "Frontier" => .FRONTIER
  | "Homestead" => .HOMESTEAD
  | "Tangerine" => .TANGERINE
  | "Spurious" => .SPURIOUS_DRAGON
  | "Byzantium" => .BYZANTIUM
  | "Constantinople" => .CONSTANTINOPLE
  | "Petersburg" => .PETERSBURG
  | "Istanbul" => .ISTANBUL
  | "MuirGlacier" => .MUIR_GLACIER
  | "Berlin" => .BERLIN
  | "London" => .LONDON
  | "Merge" => .MERGE
  | "Shanghai" => .SHANGHAI
  | "Cancun" => .CANCUN
  | "Prague" => .PRAGUE
  | _ => .LATEST

/-- The twenty L1 `SpecId` variants, listed in declaration order. -/
def allSpecIds : List SpecId :=
  [.FRONTIER, .FRONTIER_THAWING, .HOMESTEAD, .DAO_FORK, .TANGERINE,
   .SPURIOUS_DRAGON, .BYZANTIUM, .CONSTANTINOPLE, .PETERSBURG, .ISTANBUL,
   .MUIR_GLACIER, .BERLIN, .LONDON, .ARROW_GLACIER, .GRAY_GLACIER,
   .MERGE, .SHANGHAI, .CANCUN, .PRAGUE, .LATEST]

/-- Hardfork identifiers of the Optimism (L2) spec registry
(crates/optimism/src/lib.rs), which inserts BEDROCK, REGOLITH, CANYON and
ECOTONE between canonical L1 hardforks. -/
inductive OpSpecId where
  | FRONTIER
  | FRONTIER_THAWING
  | HOMESTEAD
  | DAO_FORK
  | TANGERINE
  | SPURIOUS_DRAGON
  | BYZANTIUM
  | CONSTANTINOPLE
  | PETERSBURG
  | ISTANBUL
  | MUIR_GLACIER
  | BERLIN
  | LONDON
  | ARROW_GLACIER
  | GRAY_GLACIER
  | MERGE
  | BEDROCK
  | REGOLITH
  | SHANGHAI
  | CANYON
  | CANCUN
  | ECOTONE
  | PRAGUE
  | LATEST
  deriving DecidableEq, Repr, Fintype

/-- The repr(u8) discriminant of each L2 `SpecId` variant
(`FRONTIER = 0`, ..., `PRAGUE = 22`, `LATEST = u8::MAX`). -/
def OpSpecId.toU8 : OpSpecId → Nat
  | .FRONTIER => 0
  | .FRONTIER_THAWING => 1
  | .HOMESTEAD => 2
  | .DAO_FORK => 3
  | .TANGERINE => 4
  | .SPURIOUS_DRAGON => 5
  | .BYZANTIUM => 6
  | .CONSTANTINOPLE => 7
  | .PETERSBURG => 8
  | .ISTANBUL => 9
  | .MUIR_GLACIER => 10
  | .BERLIN => 11
  | .LONDON => 12
  | .ARROW_GLACIER => 13
  | .GRAY_GLACIER => 14
  | .MERGE => 15
  | .BEDROCK => 16
  | .REGOLITH => 17
  | .SHANGHAI => 18
  | .CANYON => 19
  | .CANCUN => 20
  | .ECOTONE => 21
  | .PRAGUE => 22
  | .LATEST => 255

/-- L2 `SpecId::enabled(our, other)` is `our as u8 >= other as u8`. -/
def OpSpecId.enabled (our other : OpSpecId) : Bool :=
  decide (other.toU8 ≤ our.toU8)

/-- `impl From<SpecId> for revm_primitives::SpecId`: the lossy mapping from
L2 hardforks back to L1 hardforks. -/
def OpSpecId.intoSpecId : OpSpecId → SpecId
  | .FRONTIER => .FRONTIER
  | .FRONTIER_THAWING => .FRONTIER_THAWING
  | .HOMESTEAD => .HOMESTEAD
  | .DAO_FORK => .DAO_FORK
  | .TANGERINE => .TANGERINE
  | .SPURIOUS_DRAGON => .SPURIOUS_DRAGON
  | .BYZANTIUM => .BYZANTIUM
  | .CONSTANTINOPLE => .CONSTANTINOPLE
  | .PETERSBURG => .PETERSBURG
  | .ISTANBUL => .ISTANBUL
  | .MUIR_GLACIER => .MUIR_GLACIER
  | .BERLIN => .BERLIN
  | .LONDON => .LONDON
  | .ARROW_GLACIER => .ARROW_GLACIER
  | .GRAY_GLACIER => .GRAY_GLACIER
  | .MERGE => .MERGE
  | .BEDROCK => .MERGE
  | .REGOLITH => .MERGE
  | .SHANGHAI => .SHANGHAI
  | .CANYON => .SHANGHAI
  | .CANCUN => .CANCUN
  | .ECOTONE => .CANCUN
  | .PRAGUE => .PRAGUE
  | .LATEST => .LATEST

/-- The L2 `impl From<SpecId> for &'static str`: canonical display names,
including the four L2-only hardforks. -/
def OpSpecId.name : OpSpecId → String
  | .FRONTIER => "Frontier"
  | .FRONTIER_THAWING => "Frontier Thawing"
  | .HOMESTEAD => "Homestead"
  | .DAO_FORK => "DAO Fork"
  | .TANGERINE => "Tangerine"
  | .SPURIOUS_DRAGON => "Spurious"
  | .BYZANTIUM => "Byzantium"
  | .CONSTANTINOPLE => "Constantinople"
  | .PETERSBURG => "Petersburg"
  | .ISTANBUL => "Istanbul"
  | .MUIR_GLACIER => "MuirGlacier"
  | .BERLIN => "Berlin"
  | .LONDON => "London"
  | .ARROW_GLACIER => "Arrow Glacier"
  | .GRAY_GLACIER => "Gray Glacier"
  | .MERGE => "Merge"
  | .BEDROCK => "Bedrock"
  | .REGOLITH => "Regolith"
  | .SHANGHAI => "Shanghai"
  | .CANYON => "Canyon"
  | .CANCUN => "Cancun"
  | .ECOTONE => "Ecotone"
  | .PRAGUE => "Prague"
  | .LATEST => "Latest"

/-- Accounts are identified by 20-byte addresses; modelled as `Nat`. -/
abbrev Address := Nat

/-- The Keccak-256 hash of the empty byte string: code hash of any account
with no code. -/
def KECCAK_EMPTY : Nat :=
  0xc5d2460186f7233c927e7db2dcc703c0e500b653ca82273b7bfad8045d85a470

/-- Account header (`AccountInfo`): nonce, balance, code hash and code.
Bytecode is a byte list; `code = []` stands for absent or empty code
(`info.code.clone().unwrap_or_default()` in the source). -/
structure AccountInfo where
  nonce : Nat
  balance : Nat
  codeHash : Nat
  code : List Nat
  deriving DecidableEq, Repr

/-- The empty account: zero nonce and balance, no code. -/
def AccountInfo.empty : AccountInfo :=
  { nonce := 0, balance := 0, codeHash := KECCAK_EMPTY, code := [] }

/-- An account held by the journaled state: its header plus the warm (loaded)
and touched (EIP-161) status flags. -/
structure Account where
  info : AccountInfo
  warm : Bool
  touched : Bool
  deriving DecidableEq, Repr

/-- Modelled from the spec: the `JournalEntry` variants exercised by frame
construction (the full enum also has storage, nonce, code and creation
entries, none of which frame construction emits). Each entry carries enough
data to exactly undo its change. -/
inductive JournalEntry where
  | AccountWarmed (address : Address)
  | AccountTouched (address : Address)
  | BalanceTransfer (src : Address) (dst : Address) (balance : Nat)
  deriving DecidableEq, Repr

/-- Modelled from the spec: the instruction result codes frame construction
can produce or inspect (the full enum is wider). -/
inductive InstructionResult where
  | Continue
  | Stop
  | Return
  | SelfDestruct
  | Revert
  | CallTooDeep
  | OutOfFunds
  | PrecompileOOG
  | PrecompileError
  deriving DecidableEq, Repr

/-- Modelled from the spec: the `return_ok!()` pattern — the results that
count as successful termination. -/
def InstructionResult.is_ok : InstructionResult → Bool
  | .Continue => true
  | .Stop => true
  | .Return => true
  | .SelfDestruct => true
  | _ => false

/-- Modelled from the spec: the database consumed by `JournaledState`
(`basic(addr)` behind a narrow interface). The repository tests drive
`make_call_frame` with `EmptyDB`/`CacheDB`, whose error type is never
produced, so the database is modelled as a total function; a missing
account reads as the empty account. -/
abbrev Database := Address → AccountInfo

/-- Association-list lookup on the account overlay. -/
def lookupAcc : List (Address × Account) → Address → Option Account
  | [], _ => none
  | (k, v) :: rest, a => if k = a then some v else lookupAcc rest a

/-- Update the account stored at `a`, when present, by prepending the
rewritten binding (lookups see the newest binding first). -/
def updateAcc (s : List (Address × Account)) (a : Address) (f : Account → Account) :
    List (Address × Account) :=
  match lookupAcc s a with
  | some acc => (a, f acc) :: s
  | none => s

/-- The balance an observer reads through the overlay: the overlay account
if loaded, the database account otherwise. -/
def stateBalance (s : List (Address × Account)) (db : Database) (a : Address) : Nat :=
  ((lookupAcc s a).map (fun acc => acc.info.balance)).getD (db a).balance

/-- Append a journal entry to the newest journal frame. -/
def pushEntry (j : List (List JournalEntry)) (e : JournalEntry) :
    List (List JournalEntry) :=
  match j.reverse with
  | last :: rest => ((last ++ [e]) :: rest).reverse
  | [] => [[e]]

/-- Merge the newest journal frame into the enclosing one. -/
def mergeLast (j : List (List JournalEntry)) : List (List JournalEntry) :=
  match j.reverse with
  | last :: prev :: rest => ((prev ++ last) :: rest).reverse
  | _ => j

/-- Modelled from the spec: the transactional world-state overlay
(`JournaledState`, whose implementation is not part of the excerpt):
account map, per-depth journal frames, depth counter and the pre-warmed
address set. Storage maps and the spec id are omitted: frame construction
never consults them. -/
structure JournaledState where
  state : List (Address × Account)
  journal : List (List JournalEntry)
  depth : Nat
  warm_preloaded_addresses : List Address
  deriving DecidableEq, Repr

/-- Modelled from the spec: a fresh `JournaledState` — empty overlay, one
empty journal frame, depth 0, and the given pre-warmed address set. -/
def JournaledState.new (warm : List Address) : JournaledState :=
  { state := [], journal := [[]], depth := 0, warm_preloaded_addresses := warm }

/-- Balance of `a` as read through this journaled state. -/
def JournaledState.balanceOf (js : JournaledState) (db : Database) (a : Address) : Nat :=
  stateBalance js.state db a

/-- Code of `a` as read through this journaled state. -/
def JournaledState.codeAt (js : JournaledState) (db : Database) (a : Address) : List Nat :=
  ((lookupAcc js.state a).map (fun acc => acc.info.code)).getD (db a).code

/-- Modelled from the spec: `load_account(addr, db)` ensures the account is
present in the overlay; the first load of an address that is not pre-warmed
emits an `AccountWarmed` entry and reports `was_cold = true`. -/
def JournaledState.load_account (js : JournaledState) (db : Database) (addr : Address) :
    (Account × Bool) × JournaledState :=
  match lookupAcc js.state addr with
  | some acc => ((acc, false), js)
  | none =>
      let is_cold := ! js.warm_preloaded_addresses.contains addr
      let acc : Account := { info := db addr, warm := true, touched := false }
      ((acc, is_cold),
        { js with
          state := (addr, acc) :: js.state,
          journal := if is_cold then pushEntry js.journal (.AccountWarmed addr)
                     else js.journal })

/-- Modelled from the spec: `load_code(addr, db)` loads the account and
guarantees its code is populated; here `AccountInfo` always carries its
code, so this is account loading. -/
def JournaledState.load_code (js : JournaledState) (db : Database) (addr : Address) :
    (Account × Bool) × JournaledState :=
  js.load_account db addr

/-- Modelled from the spec: `touch(addr)` marks a loaded account as touched
per EIP-161, journaling an `AccountTouched` entry the first time. -/
def JournaledState.touch (js : JournaledState) (addr : Address) : JournaledState :=
  match lookupAcc js.state addr with
  | some acc =>
      if acc.touched then js
      else
        { js with
          state := (addr, { acc with touched := true }) :: js.state,
          journal := pushEntry js.journal (.AccountTouched addr) }
  | none => js

/-- Modelled from the spec: `transfer(from, to, value, db)` atomically
debits and credits; it returns `Some(OutOfFunds)` without mutating when the
source balance is short, otherwise it loads both accounts, moves the value
and appends a `BalanceTransfer` entry. -/
def JournaledState.transfer (js : JournaledState) (db : Database)
    (src dst : Address) (value : Nat) :
    Option InstructionResult × JournaledState :=
  if stateBalance js.state db src < value then
    (some .OutOfFunds, js)
  else
    let js1 := (js.load_account db src).2
    let js2 := (js1.load_account db dst).2
    let js3 := { js2 with
      state := updateAcc js2.state src
        (fun acc => { acc with info := { acc.info with balance := acc.info.balance - value } }) }
    let js4 := { js3 with
      state := updateAcc js3.state dst
        (fun acc => { acc with info := { acc.info with balance := acc.info.balance + value } }) }
    (none, { js4 with journal := pushEntry js4.journal (.BalanceTransfer src dst value) })

/-- Modelled from the spec: `checkpoint()` records the rollback point (the
current number of journal frames), pushes a fresh frame and increments the
depth. -/
def JournaledState.checkpoint (js : JournaledState) : Nat × JournaledState :=
  (js.journal.length,
    { js with journal := js.journal ++ [[]], depth := js.depth + 1 })

/-- Modelled from the spec: `checkpoint_commit()` merges the newest journal
frame into the enclosing one and closes the checkpoint. -/
def JournaledState.checkpoint_commit (js : JournaledState) : JournaledState :=
  { js with journal := mergeLast js.journal, depth := js.depth - 1 }

/-- Modelled from the spec: inverting a single journal entry. -/
def revertEntry (s : List (Address × Account)) : JournalEntry → List (Address × Account)
  | .AccountWarmed a => updateAcc s a (fun acc => { acc with warm := false })
  | .AccountTouched a => updateAcc s a (fun acc => { acc with touched := false })
  | .BalanceTransfer src dst v =>
      let s1 := updateAcc s dst
        (fun acc => { acc with info := { acc.info with balance := acc.info.balance - v } })
      updateAcc s1 src
        (fun acc => { acc with info := { acc.info with balance := acc.info.balance + v } })

/-- Modelled from the spec: `checkpoint_revert(cp)` pops the journal frames
opened since the checkpoint and inverts their entries in LIFO order,
restoring the pre-checkpoint state; the depth drops back by one. -/
def JournaledState.checkpoint_revert (js : JournaledState) (cp : Nat) : JournaledState :=
  { js with
    state := (((js.journal.drop cp).flatten).reverse).foldl revertEntry js.state,
    journal := js.journal.take cp,
    depth := js.depth - 1 }

/-- Modelled from the spec: the gas object; `limit` is fixed and `remaining`
starts at the limit. -/
structure Gas where
  limit : Nat
  remaining : Nat
  deriving DecidableEq, Repr

/-- `Gas::new(limit)`: all gas remaining. -/
def Gas.new (limit : Nat) : Gas :=
  { limit := limit, remaining := limit }

/-- Modelled from the spec: `record_cost` returns true iff the remainder was
sufficient; when false the remaining gas is consumed. -/
def Gas.record_cost (gas : Gas) (cost : Nat) : Bool × Gas :=
  if cost ≤ gas.remaining then (true, { gas with remaining := gas.remaining - cost })
  else (false, { gas with remaining := 0 })

/-- Modelled from the spec: the call value — a real transfer or the apparent
value of DELEGATECALL/CALLCODE frames. -/
inductive CallValue where
  | Transfer (v : Nat)
  | Apparent (v : Nat)
  deriving DecidableEq, Repr

/-- `CallValue::get()`: the carried amount, for either variant. -/
def CallValue.get : CallValue → Nat
  | .Transfer v => v
  | .Apparent v => v

/-- Modelled from the spec: the opcode that requested the call. -/
inductive CallScheme where
  | Call
  | CallCode
  | DelegateCall
  | StaticCall
  deriving DecidableEq, Repr

/-- Modelled from the spec: `CallInputs` — the request to enter a call.
`return_memory_offset` is a half-open range of `usize`. -/
structure CallInputs where
  input : List Nat
  gas_limit : Nat
  bytecode_address : Address
  target_address : Address
  caller : Address
  value : CallValue
  scheme : CallScheme
  is_static : Bool
  is_eof : Bool
  return_memory_offset : Nat × Nat
  deriving DecidableEq, Repr

/-- Output of a frame: result code, remaining gas, output bytes. -/
structure InterpreterResult where
  result : InstructionResult
  gas : Gas
  output : List Nat
  deriving DecidableEq, Repr

/-- Per-frame execution target (`Contract`). -/
structure Contract where
  input : List Nat
  bytecode : List Nat
  hash : Option Nat
  target_address : Address
  caller : Address
  call_value : Nat
  deriving DecidableEq, Repr

/-- `Contract::new_with_context`: bind input, code and code hash to the
context carried by the call inputs. -/
def Contract.new_with_context (input : List Nat) (bytecode : List Nat)
    (hash : Option Nat) (inputs : CallInputs) : Contract :=
  { input := input, bytecode := bytecode, hash := hash,
    target_address := inputs.target_address, caller := inputs.caller,
    call_value := inputs.value.get }

/-- An interpreter ready to execute a frame (`Interpreter::new(contract,
gas_limit, is_static)`). -/
structure Interpreter where
  contract : Contract
  gas : Gas
  is_static : Bool
  deriving DecidableEq, Repr

/-- A live call frame: return-memory range, the checkpoint taken for it and
the interpreter. -/
structure CallFrame where
  return_memory_range : Nat × Nat
  checkpoint : Nat
  interpreter : Interpreter
  deriving DecidableEq, Repr

/-- Either a ready-to-execute frame or a fully computed result carrying the
return-memory offset of the caller (`FrameOrResult`). -/
inductive FrameOrResult where
  | Frame (frame : CallFrame)
  | Result (result : InterpreterResult) (memory_offset : Nat × Nat)
  deriving DecidableEq, Repr

/-- Modelled from the spec: the precompile output — gas used plus the
returned bytes. -/
structure PrecompileOutput where
  gas_used : Nat
  bytes : List Nat
  deriving DecidableEq, Repr

/-- Modelled from the spec: precompile failure — a recoverable error whose
`is_oog()` flag is carried directly, or a fatal error with a message. -/
inductive PrecompileErrors where
  | Error (is_oog : Bool)
  | Fatal (msg : String)
  deriving DecidableEq, Repr

/-- Modelled from the spec: a precompile handler takes the input bytes and
the gas limit. -/
abbrev PrecompileFn := List Nat → Nat → Except PrecompileErrors PrecompileOutput

/-- Lookup in the precompile registry. -/
def lookupPre : List (Address × PrecompileFn) → Address → Option PrecompileFn
  | [], _ => none
  | (k, f) :: rest, a => if k = a then some f else lookupPre rest a

/-- Modelled from the spec: the precompile registry — a mapping from address
to handler plus a side set of the addresses. -/
structure ContextPrecompiles where
  entries : List (Address × PrecompileFn)

/-- `ContextPrecompiles::default()`: no precompiles. -/
def ContextPrecompiles.default : ContextPrecompiles :=
  { entries := [] }

/-- Registry lookup by address. -/
def ContextPrecompiles.lookup (ps : ContextPrecompiles) (addr : Address) :
    Option PrecompileFn :=
  lookupPre ps.entries addr

/-- `ContextPrecompiles::call`: absent when the address is not a precompile,
otherwise the handler outcome. -/
def ContextPrecompiles.call (ps : ContextPrecompiles) (addr : Address)
    (input : List Nat) (gas_limit : Nat) :
    Option (Except PrecompileErrors PrecompileOutput) :=
  (ps.lookup addr).map (fun f => f input gas_limit)

/-- `ContextPrecompiles::addresses_set()`: the addresses of the registry. -/
def ContextPrecompiles.addresses_set (ps : ContextPrecompiles) : List Address :=
  ps.entries.map (fun p => p.1)

/-- The top-level error kinds frame construction can surface
(`EVMError::Database` from the backing store, `EVMError::Precompile` from a
fatal precompile failure). The modelled database is infallible, so only the
precompile variant is ever produced here. -/
inductive EVMError where
  | Database (msg : String)
  | Precompile (msg : String)
  deriving DecidableEq, Repr

/-- The EVM context: journaled state, database and the deferred database
error slot (the inner context), plus the precompile registry (the outer
layer). The environment is omitted: frame construction never reads it. -/
structure EvmContext where
  journaled_state : JournaledState
  db : Database
  error : Option String
  precompiles : ContextPrecompiles

/-- `EvmContext::new(db)`: fresh journaled state, no deferred error, default
precompile registry. -/
def EvmContext.new (db : Database) : EvmContext :=
  { journaled_state := JournaledState.new [], db := db, error := none,
    precompiles := ContextPrecompiles.default }

/-- `EvmContext::set_precompiles`: the source assigns
`journaled_state.warm_preloaded_addresses = precompiles.addresses_set()` and
then installs the registry. -/
def EvmContext.set_precompiles (ctx : EvmContext) (ps : ContextPrecompiles) :
    EvmContext :=
  { ctx with
    journaled_state :=
      { ctx.journaled_state with warm_preloaded_addresses := ps.addresses_set },
    precompiles := ps }

/-- `EvmContext::call_precompile`: dispatch to the registry; on success
record the gas cost (`Return`, or `PrecompileOOG` when recording fails), map
a recoverable error to `PrecompileOOG`/`PrecompileError` by its `is_oog()`
flag, and abort on a fatal error. -/
def EvmContext.call_precompile (ctx : EvmContext) (address : Address)
    (input_data : List Nat) (gas : Gas) :
    Except EVMError (Option InterpreterResult) :=
  match ctx.precompiles.call address input_data gas.limit with
  | none => Except.ok none
  | some (Except.ok output) =>
      let rc := gas.record_cost output.gas_used
      if rc.1 then
        Except.ok (some { result := .Return, gas := rc.2, output := output.bytes })
      else
        Except.ok (some { result := .PrecompileOOG, gas := rc.2, output := [] })
  | some (Except.error (PrecompileErrors.Error oog)) =>
      Except.ok (some
        { result := if oog then .PrecompileOOG else .PrecompileError,
          gas := gas, output := [] })
  | some (Except.error (PrecompileErrors.Fatal msg)) =>
      Except.error (EVMError.Precompile msg)

/-- `CALL_STACK_LIMIT`: maximum permitted call-tree depth. -/
def CALL_STACK_LIMIT : Nat := 1024

/-- `EvmContext::make_call_frame`: depth check, load code, checkpoint, value
handling (touch for a zero transfer, transfer for a positive one, nothing
for an apparent value), precompile attempt, and otherwise a frame for
non-empty code or a committed `Stop` for empty code. Returns the updated
context alongside the frame or result. -/
def EvmContext.make_call_frame (ctx : EvmContext) (inputs : CallInputs) :
    Except EVMError (EvmContext × FrameOrResult) :=
  let gas := Gas.new inputs.gas_limit
  if CALL_STACK_LIMIT < ctx.journaled_state.depth then
    Except.ok (ctx, FrameOrResult.Result
      { result := .CallTooDeep, gas := gas, output := [] }
      inputs.return_memory_offset)
  else
    let loaded := ctx.journaled_state.load_code ctx.db inputs.bytecode_address
    let account := loaded.1.1
    let js1 := loaded.2
    let code_hash := account.info.codeHash
    let bytecode := account.info.code
    let cp := js1.checkpoint.1
    let js2 := js1.checkpoint.2
    let step : JournaledState ⊕ (JournaledState × InstructionResult) :=
      match inputs.value with
      | CallValue.Transfer v =>
          if v = 0 then
            Sum.inl (((js2.load_account ctx.db inputs.target_address).2).touch
              inputs.target_address)
          else
            let tr := js2.transfer ctx.db inputs.caller inputs.target_address v
            match tr.1 with
            | some res => Sum.inr (tr.2.checkpoint_revert cp, res)
            | none => Sum.inl tr.2
      | CallValue.Apparent _ => Sum.inl js2
    match step with
    | Sum.inr p =>
        Except.ok ({ ctx with journaled_state := p.1 },
          FrameOrResult.Result { result := p.2, gas := gas, output := [] }
            inputs.return_memory_offset)
    | Sum.inl js3 =>
        let ctx3 : EvmContext := { ctx with journaled_state := js3 }
        match ctx3.call_precompile inputs.bytecode_address inputs.input gas with
        | Except.error e => Except.error e
        | Except.ok (some result) =>
            let js4 := if result.result.is_ok then js3.checkpoint_commit
                       else js3.checkpoint_revert cp
            Except.ok ({ ctx3 with journaled_state := js4 },
              FrameOrResult.Result result inputs.return_memory_offset)
        | Except.ok none =>
            if bytecode = [] then
              Except.ok ({ ctx3 with journaled_state := js3.checkpoint_commit },
                FrameOrResult.Result { result := .Stop, gas := gas, output := [] }
                  inputs.return_memory_offset)
            else
              Except.ok (ctx3, FrameOrResult.Frame
                { return_memory_range := inputs.return_memory_offset,
                  checkpoint := cp,
                  interpreter :=
                    { contract := Contract.new_with_context inputs.input bytecode
                        (some code_hash) inputs,
                      gas := Gas.new gas.limit,
                      is_static := inputs.is_static } })

/-- The transfer precondition of frame construction: a real transfer must be
covered by the caller balance (an apparent value moves nothing). -/
def transferOk (ctx : EvmContext) (inputs : CallInputs) : Prop :=
  match inputs.value with
  | CallValue.Transfer v => v ≤ ctx.journaled_state.balanceOf ctx.db inputs.caller
  | CallValue.Apparent _ => True

/-- The observable effect of reverting the checkpoint taken by
`make_call_frame`: depth and journal size are back to their pre-call values
and every balance is unchanged. -/
def revertedBack (ctx ctx2 : EvmContext) : Prop :=
  ctx2.journaled_state.depth = ctx.journaled_state.depth ∧
  ctx2.journaled_state.journal.length = ctx.journaled_state.journal.length ∧
  ∀ a, ctx2.journaled_state.balanceOf ctx.db a = ctx.journaled_state.balanceOf ctx.db a

/-- Result of a host account load (`LoadAccountResult`); its `Default` is
all-false. -/
structure LoadAccountResult where
  is_cold : Bool
  is_empty : Bool
  deriving DecidableEq, Repr

/-- `sstore` result: original (start-of-tx), present and new values, plus
the cold flag (dummy.rs). -/
structure SStoreResult where
  original_value : Nat
  present_value : Nat
  new_value : Nat
  is_cold : Bool
  deriving DecidableEq, Repr

/-- A log record emitted through the host. -/
structure Log where
  address : Address
  topics : List Nat
  data : List Nat
  deriving DecidableEq, Repr

/-- Map lookup for the dummy host storage (HashMap over U256 keys). -/
def lookupU : List (Nat × Nat) → Nat → Option Nat
  | [], _ => none
  | (k, v) :: rest, a => if k = a then some v else lookupU rest a

/-- Map insert-or-replace for the dummy host storage. -/
def insertU : List (Nat × Nat) → Nat → Nat → List (Nat × Nat)
  | [], k, v => [(k, v)]
  | (k2, v2) :: rest, k, v =>
      if k2 = k then (k, v) :: rest else (k2, v2) :: insertU rest k v

/-- The dummy host (dummy.rs): an in-memory persistent and transient
storage map keyed by the slot index alone, plus the emitted logs. The
environment field is omitted: no claim reads it. -/
structure DummyHost where
  storage : List (Nat × Nat)
  transient_storage : List (Nat × Nat)
  log : List Log
  deriving DecidableEq, Repr

/-- A fresh dummy host: empty maps, no logs. -/
def DummyHost.new : DummyHost :=
  { storage := [], transient_storage := [], log := [] }

/-- `DummyHost::load_account`: the default result for every address. -/
def DummyHost.load_account (_h : DummyHost) (_address : Address) :
    Option LoadAccountResult :=
  some { is_cold := false, is_empty := false }

/-- `DummyHost::block_hash`: zero for every block number. -/
def DummyHost.block_hash (_h : DummyHost) (_number : Nat) : Option Nat :=
  some 0

/-- `DummyHost::balance`: every account has zero balance and is never
reported cold. -/
def DummyHost.balance (_h : DummyHost) (_address : Address) :
    Option (Nat × Bool) :=
  some (0, false)

/-- `DummyHost::code`: every account has empty code and is never reported
cold. -/
def DummyHost.code (_h : DummyHost) (_address : Address) :
    Option (List Nat × Bool) :=
  some ([], false)

/-- `DummyHost::code_hash`: every account hashes to `KECCAK_EMPTY` and is
never reported cold. -/
def DummyHost.code_hash (_h : DummyHost) (_address : Address) :
    Option (Nat × Bool) :=
  some (KECCAK_EMPTY, false)

/-- `DummyHost::sload`: the address is ignored; a vacant slot is filled
with zero and reported cold, an occupied slot returns its value warm. -/
def DummyHost.sload (h : DummyHost) (_address : Address) (index : Nat) :
    (Nat × Bool) × DummyHost :=
  match lookupU h.storage index with
  | some v => ((v, false), h)
  | none => ((0, true), { h with storage := insertU h.storage index 0 })

/-- `DummyHost::sstore`: the address is ignored; the slot is written and the
previous value returned, cold exactly when the slot was vacant. The
original value is always reported as zero. -/
def DummyHost.sstore (h : DummyHost) (_address : Address) (index value : Nat) :
    SStoreResult × DummyHost :=
  match lookupU h.storage index with
  | some present =>
      ({ original_value := 0, present_value := present, new_value := value,
         is_cold := false },
       { h with storage := insertU h.storage index value })
  | none =>
      ({ original_value := 0, present_value := 0, new_value := value,
         is_cold := true },
       { h with storage := insertU h.storage index value })

/-- `DummyHost::tload`: the address is ignored; absent slots read zero. -/
def DummyHost.tload (h : DummyHost) (_address : Address) (index : Nat) : Nat :=
  (lookupU h.transient_storage index).getD 0

/-- `DummyHost::tstore`: the address is ignored. -/
def DummyHost.tstore (h : DummyHost) (_address : Address) (index value : Nat) :
    DummyHost :=
  { h with transient_storage := insertU h.transient_storage index value }

/-- `DummyHost::log`: append the record. -/
def DummyHost.logRecord (h : DummyHost) (entry : Log) : DummyHost :=
  { h with log := h.log ++ [entry] }

/-- An all-empty database: every account reads as the empty account. -/
def emptyDB : Database := fun _ => AccountInfo.empty

/-- A database giving the caller used below a balance of 9 and account 1
a two-byte code. -/
def codeDB : Database := fun a =>
  if a = 1 then
    { nonce := 0, balance := 0, codeHash := 7, code := [96, 0] }
  else if a = 3 then
    { nonce := 0, balance := 9, codeHash := KECCAK_EMPTY, code := [] }
  else
    AccountInfo.empty

/-- Call inputs used by the C1 counterexample: a CALLCODE-style request
whose bytecode address (1) differs from its target address (2), moving a
value of 5 from the penniless caller 3. -/
def c1inputs : CallInputs :=
  { input := [], gas_limit := 100, bytecode_address := 1, target_address := 2,
    caller := 3, value := CallValue.Transfer 5, scheme := CallScheme.CallCode,
    is_static := false, is_eof := false, return_memory_offset := (0, 0) }

/-- Call inputs used by the C1 witness: a plain CALL whose bytecode and
target address coincide (2), moving a value of 5 from the penniless
caller 3. -/
def w1inputs : CallInputs :=
  { input := [], gas_limit := 100, bytecode_address := 2, target_address := 2,
    caller := 3, value := CallValue.Transfer 5, scheme := CallScheme.Call,
    is_static := false, is_eof := false, return_memory_offset := (0, 0) }

/-- A context already 1025 frames deep, for the depth-check witness. -/
def c2ctx : EvmContext :=
  { journaled_state :=
      { state := [], journal := [[]], depth := 1025,
        warm_preloaded_addresses := [] },
    db := emptyDB, error := none, precompiles := ContextPrecompiles.default }

/-- A precompile handler that uses 3 gas and returns one byte. -/
def c3f : PrecompileFn := fun _ _ => Except.ok { gas_used := 3, bytes := [7] }

/-- A context whose registry maps address 1 to `c3f`. -/
def c3ctx : EvmContext :=
  { journaled_state := JournaledState.new [],
    db := emptyDB, error := none, precompiles := { entries := [(1, c3f)] } }

/-- Call inputs hitting the precompile at address 1 with an apparent value. -/
def c3inputs : CallInputs :=
  { input := [], gas_limit := 10, bytecode_address := 1, target_address := 1,
    caller := 3, value := CallValue.Apparent 0, scheme := CallScheme.DelegateCall,
    is_static := false, is_eof := false, return_memory_offset := (0, 0) }

/-- Call inputs for the zero-transfer witness: target 2 holds no code. -/
def c4inputs : CallInputs :=
  { input := [], gas_limit := 50, bytecode_address := 2, target_address := 2,
    caller := 3, value := CallValue.Transfer 0, scheme := CallScheme.Call,
    is_static := false, is_eof := false, return_memory_offset := (0, 0) }

/-- A context whose journaled state pre-warms address 7, for the
`set_precompiles` counterexample. -/
def c8ctx : EvmContext :=
  { journaled_state := JournaledState.new [7],
    db := emptyDB, error := none, precompiles := ContextPrecompiles.default }

/- Helper lemmas about the overlay map, the journal and the journaled-state
operations. -/

theorem lookupAcc_cons (k : Address) (v : Account) (s : List (Address × Account))
    (a : Address) :
    lookupAcc ((k, v) :: s) a = if k = a then some v else lookupAcc s a := rfl

theorem lookupAcc_updateAcc (s : List (Address × Account)) (x a : Address)
    (f : Account → Account) :
    lookupAcc (updateAcc s x f) a =
      if x = a then Option.map f (lookupAcc s x) else lookupAcc s a := by
  unfold updateAcc
  cases h : lookupAcc s x with
  | none =>
      by_cases hxa : x = a
      · subst hxa; simp [h]
      · simp [hxa]
  | some acc =>
      simp [lookupAcc, h]

theorem stateBalance_updateAcc (s : List (Address × Account)) (x : Address)
    (f : Account → Account) (db : Database) (a : Address)
    (hf : ∀ acc, (f acc).info.balance = acc.info.balance) :
    stateBalance (updateAcc s x f) db a = stateBalance s db a := by
  unfold stateBalance
  rw [lookupAcc_updateAcc]
  by_cases hxa : x = a
  · subst hxa
    cases h : lookupAcc s x <;> simp [hf]
  · simp [hxa]

/-- Entries other than balance transfers do not move balances when undone. -/
theorem stateBalance_revertEntry (s : List (Address × Account)) (db : Database)
    (a : Address) (e : JournalEntry)
    (he : ∀ src dst v, e ≠ JournalEntry.BalanceTransfer src dst v) :
    stateBalance (revertEntry s e) db a = stateBalance s db a := by
  cases e with
  | AccountWarmed x =>
      exact stateBalance_updateAcc s x _ db a (fun acc => rfl)
  | AccountTouched x =>
      exact stateBalance_updateAcc s x _ db a (fun acc => rfl)
  | BalanceTransfer src dst v =>
      exact absurd rfl (he src dst v)

theorem stateBalance_foldl_flags (es : List JournalEntry)
    (s : List (Address × Account)) (db : Database) (a : Address)
    (he : ∀ e ∈ es, ∀ src dst v, e ≠ JournalEntry.BalanceTransfer src dst v) :
    stateBalance (es.foldl revertEntry s) db a = stateBalance s db a := by
  induction es generalizing s with
  | nil => rfl
  | cons e rest ih =>
      have h1 : stateBalance (revertEntry s e) db a = stateBalance s db a :=
        stateBalance_revertEntry s db a e (he e (by simp))
      calc stateBalance ((e :: rest).foldl revertEntry s) db a
          = stateBalance (rest.foldl revertEntry (revertEntry s e)) db a := rfl
        _ = stateBalance (revertEntry s e) db a :=
            ih (revertEntry s e) (fun e2 h2 => he e2 (by simp [h2]))
        _ = stateBalance s db a := h1

theorem pushEntry_append (J : List (List JournalEntry))
    (fr : List JournalEntry) (e : JournalEntry) :
    pushEntry (J ++ [fr]) e = J ++ [fr ++ [e]] := by
  unfold pushEntry
  simp

theorem mergeLast_append (J : List (List JournalEntry))
    (prev fr : List JournalEntry) :
    mergeLast ((J ++ [prev]) ++ [fr]) = J ++ [prev ++ fr] := by
  unfold mergeLast
  simp

theorem load_account_depth (js : JournaledState) (db : Database) (x : Address) :
    ((js.load_account db x).2).depth = js.depth := by
  unfold JournaledState.load_account
  cases h : lookupAcc js.state x <;> simp

theorem load_account_stateBalance (js : JournaledState) (db : Database)
    (x a : Address) :
    stateBalance ((js.load_account db x).2).state db a = stateBalance js.state db a := by
  unfold JournaledState.load_account
  cases h : lookupAcc js.state x with
  | some acc => simp
  | none =>
      simp only [stateBalance, lookupAcc_cons]
      by_cases hxa : x = a
      · subst hxa; simp [h]
      · simp [hxa]

theorem load_account_self_isSome (js : JournaledState) (db : Database)
    (x : Address) :
    (lookupAcc ((js.load_account db x).2).state x).isSome := by
  unfold JournaledState.load_account
  cases h : lookupAcc js.state x with
  | some acc => simp [h]
  | none => simp [lookupAcc]

theorem load_account_isSome_mono (js : JournaledState) (db : Database)
    (x a : Address) (h : (lookupAcc js.state a).isSome) :
    (lookupAcc ((js.load_account db x).2).state a).isSome := by
  unfold JournaledState.load_account
  cases hx : lookupAcc js.state x with
  | some acc => simpa [hx] using h
  | none =>
      simp only [lookupAcc]
      by_cases hxa : x = a
      · simp [hxa]
      · simpa [hxa] using h

theorem load_account_journal_append (js : JournaledState) (db : Database)
    (x : Address) (J : List (List JournalEntry)) (fr : List JournalEntry)
    (h : js.journal = J ++ [fr]) :
    ∃ es, ((js.load_account db x).2).journal = J ++ [fr ++ es] ∧
      ∀ e ∈ es, ∀ s d v, e ≠ JournalEntry.BalanceTransfer s d v := by
  unfold JournaledState.load_account
  cases hl : lookupAcc js.state x with
  | some acc => exact ⟨[], by simp [h], by simp⟩
  | none =>
      by_cases hc : js.warm_preloaded_addresses.contains x
      · have hmem : x ∈ js.warm_preloaded_addresses := by simpa using hc
        exact ⟨[], by simp [h, hmem], by simp⟩
      · have hmem : x ∉ js.warm_preloaded_addresses := by simpa using hc
        refine ⟨[JournalEntry.AccountWarmed x], ?_, by simp⟩
        simp [h, hmem, pushEntry_append]

theorem touch_depth (js : JournaledState) (x : Address) :
    (js.touch x).depth = js.depth := by
  unfold JournaledState.touch
  cases h : lookupAcc js.state x with
  | some acc => by_cases ht : acc.touched <;> simp [ht]
  | none => simp

theorem touch_stateBalance (js : JournaledState) (db : Database) (x a : Address) :
    stateBalance (js.touch x).state db a = stateBalance js.state db a := by
  unfold JournaledState.touch
  cases h : lookupAcc js.state x with
  | some acc =>
      by_cases ht : acc.touched
      · simp [ht]
      · simp only [if_neg ht]
        simp only [stateBalance, lookupAcc_cons]
        by_cases hxa : x = a
        · subst hxa; simp [h]
        · simp [hxa]
  | none => simp

theorem touch_journal_append (js : JournaledState) (x : Address)
    (J : List (List JournalEntry)) (fr : List JournalEntry)
    (h : js.journal = J ++ [fr]) :
    ∃ es, (js.touch x).journal = J ++ [fr ++ es] ∧
      ∀ e ∈ es, ∀ s d v, e ≠ JournalEntry.BalanceTransfer s d v := by
  unfold JournaledState.touch
  cases hl : lookupAcc js.state x with
  | some acc =>
      by_cases ht : acc.touched
      · exact ⟨[], by simp [ht, h], by simp⟩
      · refine ⟨[JournalEntry.AccountTouched x], ?_, by simp⟩
        simp [ht, h, pushEntry_append]
  | none => exact ⟨[], by simp [h], by simp⟩

theorem touch_touched (js : JournaledState) (x : Address)
    (h : (lookupAcc js.state x).isSome) :
    ∃ acc, lookupAcc (js.touch x).state x = some acc ∧ acc.touched = true := by
  unfold JournaledState.touch
  cases hl : lookupAcc js.state x with
  | some acc =>
      by_cases ht : acc.touched
      · refine ⟨acc, ?_, ht⟩
        simp [ht, hl]
      · refine ⟨{ acc with touched := true }, ?_, rfl⟩
        simp [if_neg ht, lookupAcc_cons]
  | none => simp [hl] at h

theorem load_account_code (js : JournaledState) (db : Database) (x : Address) :
    ((js.load_account db x).1.1).info.code = js.codeAt db x := by
  unfold JournaledState.load_account JournaledState.codeAt
  cases h : lookupAcc js.state x <;> simp [h]

theorem checkpoint_state (js : JournaledState) : (js.checkpoint.2).state = js.state := rfl

theorem checkpoint_journal (js : JournaledState) :
    (js.checkpoint.2).journal = js.journal ++ [[]] := rfl

theorem checkpoint_depth (js : JournaledState) :
    (js.checkpoint.2).depth = js.depth + 1 := rfl

theorem checkpoint_fst (js : JournaledState) :
    js.checkpoint.1 = js.journal.length := rfl

theorem checkpoint_revert_frame (js1 js3 : JournaledState) (fr : List JournalEntry)
    (hj : js3.journal = js1.journal ++ [fr]) (hd : js3.depth = js1.depth + 1) :
    (js3.checkpoint_revert js1.journal.length).journal = js1.journal ∧
    (js3.checkpoint_revert js1.journal.length).depth = js1.depth ∧
    (js3.checkpoint_revert js1.journal.length).state
      = fr.reverse.foldl revertEntry js3.state := by
  unfold JournaledState.checkpoint_revert
  rw [hj]
  refine ⟨?_, ?_, ?_⟩
  · simp
  · simp [hd]
  · simp

theorem checkpoint_commit_frame (js1 js3 : JournaledState) (fr : List JournalEntry)
    (hj : js3.journal = js1.journal ++ [fr]) (hd : js3.depth = js1.depth + 1)
    (hne : js1.journal ≠ []) :
    (js3.checkpoint_commit).journal.length = js1.journal.length ∧
    (js3.checkpoint_commit).depth = js1.depth ∧
    (js3.checkpoint_commit).state = js3.state := by
  obtain ⟨J0, prev, hsplit⟩ := (List.eq_nil_or_concat js1.journal).resolve_left hne
  rw [List.concat_eq_append] at hsplit
  unfold JournaledState.checkpoint_commit
  rw [hj, hsplit, mergeLast_append]
  refine ⟨by simp, by simp [hd], rfl⟩

/-- A successful transfer: no failure result, depth preserved, the journal
frame extended by warm entries and the balance-transfer record, and undoing
the balance-transfer record restores every balance. -/
theorem transfer_success (js : JournaledState) (db : Database) (src dst v : Nat)
    (hv : ¬ stateBalance js.state db src < v) :
    (js.transfer db src dst v).1 = none ∧
    ((js.transfer db src dst v).2).depth = js.depth ∧
    (∀ J fr, js.journal = J ++ [fr] →
      ∃ es, ((js.transfer db src dst v).2).journal
          = J ++ [(fr ++ es) ++ [JournalEntry.BalanceTransfer src dst v]] ∧
        ∀ e ∈ es, ∀ s d w, e ≠ JournalEntry.BalanceTransfer s d w) ∧
    (∀ a, stateBalance (revertEntry ((js.transfer db src dst v).2).state
            (JournalEntry.BalanceTransfer src dst v)) db a
        = stateBalance js.state db a) := by
  unfold JournaledState.transfer
  rw [if_neg hv]
  refine ⟨rfl, ?_, ?_, ?_⟩
  · show ((((js.load_account db src).2).load_account db dst).2).depth = js.depth
    rw [load_account_depth, load_account_depth]
  · intro J fr hJ
    obtain ⟨es1, h1, hf1⟩ := load_account_journal_append js db src J fr hJ
    obtain ⟨es2, h2, hf2⟩ :=
      load_account_journal_append ((js.load_account db src).2) db dst J (fr ++ es1) h1
    refine ⟨es1 ++ es2, ?_, ?_⟩
    · show pushEntry ((((js.load_account db src).2).load_account db dst).2).journal
          (JournalEntry.BalanceTransfer src dst v) = _
      rw [h2, pushEntry_append]
      simp
    · intro e he
      rcases List.mem_append.mp he with h | h
      · exact hf1 e h
      · exact hf2 e h
  · intro a
    have hSbal : ∀ b, stateBalance
        ((((js.load_account db src).2).load_account db dst).2).state db b
        = stateBalance js.state db b := by
      intro b
      rw [load_account_stateBalance, load_account_stateBalance]
    have hsrcSome : (lookupAcc
        ((((js.load_account db src).2).load_account db dst).2).state src).isSome :=
      load_account_isSome_mono ((js.load_account db src).2) db dst src
        (load_account_self_isSome js db src)
    have hdstSome : (lookupAcc
        ((((js.load_account db src).2).load_account db dst).2).state dst).isSome :=
      load_account_self_isSome ((js.load_account db src).2) db dst
    obtain ⟨aS, haS⟩ := Option.isSome_iff_exists.mp hsrcSome
    obtain ⟨aD, haD⟩ := Option.isSome_iff_exists.mp hdstSome
    have hbs : v ≤ aS.info.balance := by
      have h1 := hSbal src
      rw [stateBalance, haS] at h1
      simp at h1
      have h2 := Nat.not_lt.mp hv
      omega
    have hrhsS : stateBalance js.state db src = aS.info.balance := by
      have h1 := hSbal src
      rw [stateBalance, haS] at h1
      simpa using h1.symm
    have hrhsD : stateBalance js.state db dst = aD.info.balance := by
      have h1 := hSbal dst
      rw [stateBalance, haD] at h1
      simpa using h1.symm
    show stateBalance (revertEntry _ (JournalEntry.BalanceTransfer src dst v)) db a
        = stateBalance js.state db a
    simp only [stateBalance] at hrhsS hrhsD
    simp only [revertEntry, stateBalance, lookupAcc_updateAcc]
    by_cases hsa : src = a
    · subst hsa
      by_cases hds : dst = src
      · subst hds
        have hDS : aD = aS := by
          rw [haD] at haS
          exact Option.some.inj haS
        subst hDS
        simp [haD, hrhsD]
        omega
      · simp [hds, haS, hrhsS]
        omega
    · by_cases hda : dst = a
      · subst hda
        simp [hsa, haD, hrhsD]
      · simp [hsa, hda]
        have h1 := hSbal a
        simp only [stateBalance] at h1
        exact h1

/-- The zero-transfer window: checkpoint, load target, touch target. Depth
rises by one, the new frame holds only flag entries, balances are untouched
and the target ends up loaded and touched. -/
theorem touch_window (js1 : JournaledState) (db : Database) (t : Address) :
    ((((js1.checkpoint.2).load_account db t).2).touch t).depth = js1.depth + 1 ∧
    (∃ fr, ((((js1.checkpoint.2).load_account db t).2).touch t).journal
        = js1.journal ++ [fr] ∧
      ∀ e ∈ fr, ∀ s d w, e ≠ JournalEntry.BalanceTransfer s d w) ∧
    (∀ a, stateBalance ((((js1.checkpoint.2).load_account db t).2).touch t).state db a
        = stateBalance js1.state db a) ∧
    (∃ acc, lookupAcc ((((js1.checkpoint.2).load_account db t).2).touch t).state t
        = some acc ∧ acc.touched = true) := by
  refine ⟨?_, ?_, ?_, ?_⟩
  · rw [touch_depth, load_account_depth, checkpoint_depth]
  · obtain ⟨es1, h1, hf1⟩ :=
      load_account_journal_append (js1.checkpoint.2) db t js1.journal []
        (checkpoint_journal js1)
    obtain ⟨es2, h2, hf2⟩ :=
      touch_journal_append (((js1.checkpoint.2).load_account db t).2) t js1.journal
        ([] ++ es1) h1
    refine ⟨([] ++ es1) ++ es2, h2, ?_⟩
    intro e he
    rcases List.mem_append.mp he with h | h
    · exact hf1 e (by simpa using h)
    · exact hf2 e h
  · intro a
    rw [touch_stateBalance, load_account_stateBalance, checkpoint_state]
  · exact touch_touched _ t (load_account_self_isSome _ db t)

theorem load_account_journal_nonempty (js : JournaledState) (db : Database)
    (x : Address) (h : js.journal ≠ []) :
    ((js.load_account db x).2).journal ≠ [] ∧
    ((js.load_account db x).2).journal.length = js.journal.length := by
  obtain ⟨J0, last, hsplit⟩ := (List.eq_nil_or_concat js.journal).resolve_left h
  rw [List.concat_eq_append] at hsplit
  obtain ⟨es, he, _⟩ := load_account_journal_append js db x J0 last hsplit
  rw [he, hsplit]
  constructor
  · simp
  · simp

/-- C2: whenever the journal depth already exceeds CALL_STACK_LIMIT when
make_call_frame is entered, it returns FrameOrResult.Result with
CallTooDeep, remaining gas equal to the input gas limit and empty output,
and the context comes back unchanged: no checkpoint, no account load, no
mutation of the journaled state. -/
theorem make_call_frame_call_too_deep (ctx : EvmContext) (inputs : CallInputs)
    (h : CALL_STACK_LIMIT < ctx.journaled_state.depth) :
    ctx.make_call_frame inputs =
      Except.ok (ctx, FrameOrResult.Result
        { result := InstructionResult.CallTooDeep,
          gas := Gas.new inputs.gas_limit, output := [] }
        inputs.return_memory_offset) ∧
    (Gas.new inputs.gas_limit).remaining = inputs.gas_limit := by
  constructor
  · unfold EvmContext.make_call_frame
    rw [if_pos h]
  · rfl

/-- C2 witness: the depth-check theorem applied to a context 1025 deep. -/
theorem make_call_frame_call_too_deep_witness :
    c2ctx.make_call_frame c1inputs =
      Except.ok (c2ctx, FrameOrResult.Result
        { result := InstructionResult.CallTooDeep,
          gas := Gas.new 100, output := [] }
        (0, 0)) ∧
    (Gas.new 100).remaining = 100 :=
  make_call_frame_call_too_deep c2ctx c1inputs (by decide)

/-- C1 counterexample: for the CALLCODE-style inputs c1inputs (bytecode
address 1, target address 2, transfer of 5 from the penniless caller 3,
fresh context over an empty database), make_call_frame does produce
Result(OutOfFunds) with depth back at 0, but the single journal entry left
is AccountWarmed(1) — the loaded bytecode address — and not an
AccountWarmed entry for the touched target address 2 as the claim states. -/
theorem make_call_frame_out_of_funds_counterexample :
    ((EvmContext.new emptyDB).make_call_frame c1inputs).toOption.map
        (fun p => (p.2, p.1.journaled_state.journal, p.1.journaled_state.depth))
      = some (FrameOrResult.Result
          { result := InstructionResult.OutOfFunds,
            gas := Gas.new 100, output := [] }
          (0, 0),
          [[JournalEntry.AccountWarmed 1]], 0) ∧
    c1inputs.target_address = 2 ∧
    [[JournalEntry.AccountWarmed 1]]
      ≠ [[JournalEntry.AccountWarmed c1inputs.target_address]] := by
  refine ⟨rfl, rfl, by decide⟩

/-- C1 (amended): from a fresh context, a positive transfer exceeding the
caller balance makes make_call_frame revert the checkpoint it took and
return Result(OutOfFunds) with untouched gas and empty output; after the
revert the journal holds exactly one AccountWarmed entry for the loaded
bytecode address (equal to the target address for regular CALLs), the depth
is back to its pre-call value 0, and no balance changed. -/
theorem make_call_frame_out_of_funds (db : Database) (inputs : CallInputs)
    (v : Nat) (hval : inputs.value = CallValue.Transfer v) (hv : 0 < v)
    (hbal : (db inputs.caller).balance < v) :
    ∃ js : JournaledState,
      (EvmContext.new db).make_call_frame inputs =
        Except.ok ({ EvmContext.new db with journaled_state := js },
          FrameOrResult.Result
            { result := InstructionResult.OutOfFunds,
              gas := Gas.new inputs.gas_limit, output := [] }
            inputs.return_memory_offset) ∧
      js.journal = [[JournalEntry.AccountWarmed inputs.bytecode_address]] ∧
      js.depth = 0 ∧
      ∀ a, js.balanceOf db a = (db a).balance := by
  have hv0 : ¬ (v = 0) := by omega
  have hdepth0 : ¬ CALL_STACK_LIMIT < (EvmContext.new db).journaled_state.depth := by
    show ¬ CALL_STACK_LIMIT < 0
    decide
  have hguard :
      stateBalance
        ((((EvmContext.new db).journaled_state.load_code (EvmContext.new db).db
          inputs.bytecode_address).2).checkpoint).2.state
        (EvmContext.new db).db inputs.caller < v := by
    show stateBalance
      [(inputs.bytecode_address,
        { info := db inputs.bytecode_address, warm := true, touched := false })]
      db inputs.caller < v
    by_cases hBc : inputs.bytecode_address = inputs.caller
    · simp only [stateBalance, lookupAcc, hBc, if_pos rfl]
      simpa [hBc] using hbal
    · simp only [stateBalance, lookupAcc, if_neg hBc]
      simpa using hbal
  refine ⟨⟨[(inputs.bytecode_address,
      { info := db inputs.bytecode_address, warm := true, touched := false })],
      [[JournalEntry.AccountWarmed inputs.bytecode_address]], 0, []⟩, ?_, rfl, rfl, ?_⟩
  · unfold EvmContext.make_call_frame JournaledState.transfer
    rw [if_neg hdepth0]
    simp only [hval]
    rw [if_neg hv0, if_pos hguard]
    rfl
  · intro a
    by_cases hBa : inputs.bytecode_address = a
    · simp only [JournaledState.balanceOf, stateBalance, lookupAcc, if_pos hBa]
      simp [hBa]
    · simp only [JournaledState.balanceOf, stateBalance, lookupAcc, if_neg hBa]
      simp

/-- C1 witness: the amended theorem applied to a plain CALL (bytecode and
target address both 2) over the empty database. -/
theorem make_call_frame_out_of_funds_witness :
    ∃ js : JournaledState,
      (EvmContext.new emptyDB).make_call_frame w1inputs =
        Except.ok ({ EvmContext.new emptyDB with journaled_state := js },
          FrameOrResult.Result
            { result := InstructionResult.OutOfFunds,
              gas := Gas.new 100, output := [] }
            (0, 0)) ∧
      js.journal = [[JournalEntry.AccountWarmed 2]] ∧
      js.depth = 0 ∧
      ∀ a, js.balanceOf emptyDB a = (emptyDB a).balance :=
  make_call_frame_out_of_funds emptyDB w1inputs 5 rfl (by decide) (by decide)

/-- C4: a Transfer(0) call loads the target account and marks it touched
without moving any balance; when additionally the loaded bytecode is empty
and the address is not a precompile, the checkpoint is committed and the
result is Result(Stop) with remaining gas equal to the input gas limit and
empty output. -/
theorem make_call_frame_transfer_zero_stop (ctx : EvmContext) (inputs : CallInputs)
    (hdepth : ctx.journaled_state.depth ≤ CALL_STACK_LIMIT)
    (hjournal : ctx.journaled_state.journal ≠ [])
    (hval : inputs.value = CallValue.Transfer 0)
    (hcode : ctx.journaled_state.codeAt ctx.db inputs.bytecode_address = [])
    (hpre : ctx.precompiles.lookup inputs.bytecode_address = none) :
    ∃ ctx2 : EvmContext,
      ctx.make_call_frame inputs =
        Except.ok (ctx2, FrameOrResult.Result
          { result := InstructionResult.Stop,
            gas := Gas.new inputs.gas_limit, output := [] }
          inputs.return_memory_offset) ∧
      (∃ acc, lookupAcc ctx2.journaled_state.state inputs.target_address = some acc ∧
        acc.touched = true) ∧
      (∀ a, ctx2.journaled_state.balanceOf ctx.db a
          = ctx.journaled_state.balanceOf ctx.db a) ∧
      ctx2.journaled_state.depth = ctx.journaled_state.depth ∧
      ctx2.journaled_state.journal.length = ctx.journaled_state.journal.length := by
  have hdepth2 : ¬ CALL_STACK_LIMIT < ctx.journaled_state.depth := Nat.not_lt.mpr hdepth
  have hbc : ((ctx.journaled_state.load_code ctx.db
      inputs.bytecode_address).1).1.info.code = [] :=
    (load_account_code ctx.journaled_state ctx.db inputs.bytecode_address).trans hcode
  obtain ⟨hjne, hjlen⟩ := load_account_journal_nonempty ctx.journaled_state ctx.db
    inputs.bytecode_address hjournal
  obtain ⟨htd, ⟨fr, hfj, hff⟩, htb, htt⟩ :=
    touch_window ((ctx.journaled_state.load_code ctx.db inputs.bytecode_address).2)
      ctx.db inputs.target_address
  obtain ⟨hclen, hcdepth, hcstate⟩ := checkpoint_commit_frame
    ((ctx.journaled_state.load_code ctx.db inputs.bytecode_address).2)
    (((((ctx.journaled_state.load_code ctx.db
        inputs.bytecode_address).2).checkpoint).2.load_account
      ctx.db inputs.target_address).2.touch inputs.target_address)
    fr hfj htd hjne
  refine ⟨{ ctx with journaled_state :=
      ((((((ctx.journaled_state.load_code ctx.db
          inputs.bytecode_address).2).checkpoint).2.load_account
        ctx.db inputs.target_address).2.touch
          inputs.target_address).checkpoint_commit) }, ?_, ?_, ?_, ?_, ?_⟩
  · unfold EvmContext.make_call_frame EvmContext.call_precompile ContextPrecompiles.call
    rw [if_neg hdepth2]
    simp only [hval, if_true]
    simp only [hpre, Option.map_none']
    rw [if_pos hbc]
  · exact htt
  · intro a
    exact (htb a).trans
      (load_account_stateBalance ctx.journaled_state ctx.db inputs.bytecode_address a)
  · exact hcdepth.trans (load_account_depth ctx.journaled_state ctx.db inputs.bytecode_address)
  · exact hclen.trans hjlen

/-- C4 witness: the zero-transfer theorem applied to a fresh context over
the empty database, calling the codeless address 2. -/
theorem make_call_frame_transfer_zero_stop_witness :
    ∃ ctx2 : EvmContext,
      (EvmContext.new emptyDB).make_call_frame c4inputs =
        Except.ok (ctx2, FrameOrResult.Result
          { result := InstructionResult.Stop,
            gas := Gas.new 50, output := [] }
          (0, 0)) ∧
      (∃ acc, lookupAcc ctx2.journaled_state.state 2 = some acc ∧
        acc.touched = true) ∧
      (∀ a, ctx2.journaled_state.balanceOf (EvmContext.new emptyDB).db a
          = (EvmContext.new emptyDB).journaled_state.balanceOf
              (EvmContext.new emptyDB).db a) ∧
      ctx2.journaled_state.depth = (EvmContext.new emptyDB).journaled_state.depth ∧
      ctx2.journaled_state.journal.length
        = (EvmContext.new emptyDB).journaled_state.journal.length :=
  make_call_frame_transfer_zero_stop (EvmContext.new emptyDB) c4inputs
    (by decide) (by decide) rfl rfl rfl

theorem revertedBack_build (ctx : EvmContext) (js1 js3 : JournaledState)
    (fr : List JournalEntry)
    (hj3j : js3.journal = js1.journal ++ [fr]) (hj3d : js3.depth = js1.depth + 1)
    (hrevb : ∀ a, stateBalance (fr.reverse.foldl revertEntry js3.state) ctx.db a
        = stateBalance js1.state ctx.db a)
    (hd1 : js1.depth = ctx.journaled_state.depth)
    (hl1 : js1.journal.length = ctx.journaled_state.journal.length)
    (hb1 : ∀ a, stateBalance js1.state ctx.db a
        = stateBalance ctx.journaled_state.state ctx.db a) :
    revertedBack ctx
      { ctx with journaled_state := js3.checkpoint_revert js1.journal.length } := by
  obtain ⟨hrj, hrd, hrs⟩ := checkpoint_revert_frame js1 js3 fr hj3j hj3d
  refine ⟨hrd.trans hd1, (congrArg List.length hrj).trans hl1, ?_⟩
  intro a
  show stateBalance (js3.checkpoint_revert js1.journal.length).state ctx.db a
      = stateBalance ctx.journaled_state.state ctx.db a
  rw [hrs]
  exact (hrevb a).trans (hb1 a)

theorem committedBack_build (ctx : EvmContext) (js1 js3 : JournaledState)
    (fr : List JournalEntry)
    (hj3j : js3.journal = js1.journal ++ [fr]) (hj3d : js3.depth = js1.depth + 1)
    (hjne : js1.journal ≠ [])
    (hd1 : js1.depth = ctx.journaled_state.depth)
    (hl1 : js1.journal.length = ctx.journaled_state.journal.length) :
    ({ ctx with journaled_state := js3.checkpoint_commit }
        : EvmContext).journaled_state.depth = ctx.journaled_state.depth ∧
    ({ ctx with journaled_state := js3.checkpoint_commit }
        : EvmContext).journaled_state.journal.length
      = ctx.journaled_state.journal.length := by
  obtain ⟨hclen, hcd, _⟩ := checkpoint_commit_frame js1 js3 fr hj3j hj3d hjne
  exact ⟨hcd.trans hd1, hclen.trans hl1⟩

/-- C3: when the bytecode address is in the precompile registry and the
depth and transfer checks pass, make_call_frame always returns a Result and
never an interpreter Frame — even when the account also has deployed code.
The result is Return with the precompile output bytes and a committed
checkpoint when recording the gas cost succeeds; PrecompileOOG with a
reverted checkpoint when recording fails or the recoverable error is
out-of-gas; PrecompileError with a reverted checkpoint for any other
recoverable error; and a fatal error aborts with EVMError.Precompile. -/
theorem make_call_frame_precompile (ctx : EvmContext) (inputs : CallInputs)
    (f : PrecompileFn)
    (hpre : ctx.precompiles.lookup inputs.bytecode_address = some f)
    (hdepth : ctx.journaled_state.depth ≤ CALL_STACK_LIMIT)
    (hjournal : ctx.journaled_state.journal ≠ [])
    (hval : transferOk ctx inputs) :
    (match f inputs.input inputs.gas_limit with
     | Except.ok output =>
        if output.gas_used ≤ inputs.gas_limit then
          ∃ ctx2, ctx.make_call_frame inputs = Except.ok (ctx2,
              FrameOrResult.Result
                { result := InstructionResult.Return,
                  gas := { limit := inputs.gas_limit,
                           remaining := inputs.gas_limit - output.gas_used },
                  output := output.bytes }
                inputs.return_memory_offset) ∧
            ctx2.journaled_state.depth = ctx.journaled_state.depth ∧
            ctx2.journaled_state.journal.length = ctx.journaled_state.journal.length
        else
          ∃ ctx2, ctx.make_call_frame inputs = Except.ok (ctx2,
              FrameOrResult.Result
                { result := InstructionResult.PrecompileOOG,
                  gas := { limit := inputs.gas_limit, remaining := 0 },
                  output := [] }
                inputs.return_memory_offset) ∧ revertedBack ctx ctx2
     | Except.error (PrecompileErrors.Error oog) =>
        ∃ ctx2, ctx.make_call_frame inputs = Except.ok (ctx2,
            FrameOrResult.Result
              { result := if oog then InstructionResult.PrecompileOOG
                          else InstructionResult.PrecompileError,
                gas := Gas.new inputs.gas_limit, output := [] }
              inputs.return_memory_offset) ∧ revertedBack ctx ctx2
     | Except.error (PrecompileErrors.Fatal msg) =>
        ctx.make_call_frame inputs = Except.error (EVMError.Precompile msg)) := by
  have hdepth2 : ¬ CALL_STACK_LIMIT < ctx.journaled_state.depth := Nat.not_lt.mpr hdepth
  obtain ⟨hjneA, hjlenA⟩ := load_account_journal_nonempty ctx.journaled_state ctx.db
    inputs.bytecode_address hjournal
  have hjne1 : ((ctx.journaled_state.load_code ctx.db
      inputs.bytecode_address).2).journal ≠ [] := hjneA
  have hl1 : ((ctx.journaled_state.load_code ctx.db
        inputs.bytecode_address).2).journal.length
      = ctx.journaled_state.journal.length := hjlenA
  have hd1 : ((ctx.journaled_state.load_code ctx.db
        inputs.bytecode_address).2).depth
      = ctx.journaled_state.depth :=
    load_account_depth ctx.journaled_state ctx.db inputs.bytecode_address
  have hb1 : ∀ a, stateBalance ((ctx.journaled_state.load_code ctx.db
        inputs.bytecode_address).2).state ctx.db a
      = stateBalance ctx.journaled_state.state ctx.db a :=
    fun a => load_account_stateBalance ctx.journaled_state ctx.db inputs.bytecode_address a
  cases hvv : inputs.value with
  | Apparent v =>
      have hj3j : ((ctx.journaled_state.load_code ctx.db
            inputs.bytecode_address).2.checkpoint.2).journal
          = ((ctx.journaled_state.load_code ctx.db
              inputs.bytecode_address).2).journal ++ [[]] := rfl
      have hj3d : ((ctx.journaled_state.load_code ctx.db
            inputs.bytecode_address).2.checkpoint.2).depth
          = ((ctx.journaled_state.load_code ctx.db
              inputs.bytecode_address).2).depth + 1 := rfl
      have hrevb : ∀ a, stateBalance ((([] : List JournalEntry)).reverse.foldl
            revertEntry ((ctx.journaled_state.load_code ctx.db
              inputs.bytecode_address).2.checkpoint.2).state) ctx.db a
          = stateBalance ((ctx.journaled_state.load_code ctx.db
              inputs.bytecode_address).2).state ctx.db a := fun a => rfl
      have hrb := revertedBack_build ctx
        ((ctx.journaled_state.load_code ctx.db inputs.bytecode_address).2)
        ((ctx.journaled_state.load_code ctx.db inputs.bytecode_address).2.checkpoint.2)
        [] hj3j hj3d hrevb hd1 hl1 hb1
      have hcb := committedBack_build ctx
        ((ctx.journaled_state.load_code ctx.db inputs.bytecode_address).2)
        ((ctx.journaled_state.load_code ctx.db inputs.bytecode_address).2.checkpoint.2)
        [] hj3j hj3d hjne1 hd1 hl1
      cases hf : f inputs.input inputs.gas_limit with
      | ok output =>
          simp only [hf]
          by_cases hle : output.gas_used ≤ inputs.gas_limit
          · rw [if_pos hle]
            refine ⟨{ ctx with journaled_state :=
                (((ctx.journaled_state.load_code ctx.db
                  inputs.bytecode_address).2.checkpoint.2).checkpoint_commit) },
              ?_, hcb.1, hcb.2⟩
            unfold EvmContext.make_call_frame EvmContext.call_precompile
              ContextPrecompiles.call Gas.new Gas.record_cost
            rw [if_neg hdepth2]
            simp only [hvv]
            simp only [hpre, Option.map_some', hf]
            simp only [hle, if_true]
            rfl
          · rw [if_neg hle]
            refine ⟨{ ctx with journaled_state :=
                (((ctx.journaled_state.load_code ctx.db
                  inputs.bytecode_address).2.checkpoint.2).checkpoint_revert
                  ((ctx.journaled_state.load_code ctx.db
                    inputs.bytecode_address).2).journal.length) },
              ?_, hrb⟩
            unfold EvmContext.make_call_frame EvmContext.call_precompile
              ContextPrecompiles.call Gas.new Gas.record_cost
            rw [if_neg hdepth2]
            simp only [hvv]
            simp only [hpre, Option.map_some', hf]
            simp only [hle, if_false]
            rfl
      | error e =>
          cases e with
          | Error oog =>
              cases oog with
              | true =>
                  simp only [hf]
                  refine ⟨{ ctx with journaled_state :=
                      (((ctx.journaled_state.load_code ctx.db
                        inputs.bytecode_address).2.checkpoint.2).checkpoint_revert
                        ((ctx.journaled_state.load_code ctx.db
                          inputs.bytecode_address).2).journal.length) },
                    ?_, hrb⟩
                  unfold EvmContext.make_call_frame EvmContext.call_precompile
                    ContextPrecompiles.call Gas.new Gas.record_cost
                  rw [if_neg hdepth2]
                  simp only [hvv]
                  simp only [hpre, Option.map_some', hf]
                  rfl
              | false =>
                  simp only [hf]
                  refine ⟨{ ctx with journaled_state :=
                      (((ctx.journaled_state.load_code ctx.db
                        inputs.bytecode_address).2.checkpoint.2).checkpoint_revert
                        ((ctx.journaled_state.load_code ctx.db
                          inputs.bytecode_address).2).journal.length) },
                    ?_, hrb⟩
                  unfold EvmContext.make_call_frame EvmContext.call_precompile
                    ContextPrecompiles.call Gas.new Gas.record_cost
                  rw [if_neg hdepth2]
                  simp only [hvv]
                  simp only [hpre, Option.map_some', hf]
                  rfl
          | Fatal msg =>
              simp only [hf]
              unfold EvmContext.make_call_frame EvmContext.call_precompile
                ContextPrecompiles.call Gas.new Gas.record_cost
              rw [if_neg hdepth2]
              simp only [hvv]
              simp only [hpre, Option.map_some', hf]
  | Transfer v =>
      by_cases hv0 : v = 0
      · subst hv0
        obtain ⟨htd, ⟨fr, hfj, hff⟩, htb, _⟩ := touch_window
          ((ctx.journaled_state.load_code ctx.db inputs.bytecode_address).2)
          ctx.db inputs.target_address
        have hrevb : ∀ a, stateBalance (fr.reverse.foldl revertEntry
              ((((ctx.journaled_state.load_code ctx.db
                inputs.bytecode_address).2.checkpoint.2).load_account ctx.db
                inputs.target_address).2.touch inputs.target_address).state) ctx.db a
            = stateBalance ((ctx.journaled_state.load_code ctx.db
                inputs.bytecode_address).2).state ctx.db a := by
          intro a
          rw [stateBalance_foldl_flags fr.reverse _ ctx.db a
            (fun e he => hff e (List.mem_reverse.mp he))]
          exact htb a
        have hrb := revertedBack_build ctx
          ((ctx.journaled_state.load_code ctx.db inputs.bytecode_address).2)
          ((((ctx.journaled_state.load_code ctx.db
            inputs.bytecode_address).2.checkpoint.2).load_account ctx.db
            inputs.target_address).2.touch inputs.target_address)
          fr hfj htd hrevb hd1 hl1 hb1
        have hcb := committedBack_build ctx
          ((ctx.journaled_state.load_code ctx.db inputs.bytecode_address).2)
          ((((ctx.journaled_state.load_code ctx.db
            inputs.bytecode_address).2.checkpoint.2).load_account ctx.db
            inputs.target_address).2.touch inputs.target_address)
          fr hfj htd hjne1 hd1 hl1
        cases hf : f inputs.input inputs.gas_limit with
        | ok output =>
            simp only [hf]
            by_cases hle : output.gas_used ≤ inputs.gas_limit
            · rw [if_pos hle]
              refine ⟨{ ctx with journaled_state :=
                  (((((ctx.journaled_state.load_code ctx.db
                    inputs.bytecode_address).2.checkpoint.2).load_account ctx.db
                    inputs.target_address).2.touch
                      inputs.target_address).checkpoint_commit) },
                ?_, hcb.1, hcb.2⟩
              unfold EvmContext.make_call_frame EvmContext.call_precompile
                ContextPrecompiles.call Gas.new Gas.record_cost
              rw [if_neg hdepth2]
              simp only [hvv, if_true]
              simp only [hpre, Option.map_some', hf]
              simp only [hle, if_true]
              rfl
            · rw [if_neg hle]
              refine ⟨{ ctx with journaled_state :=
                  (((((ctx.journaled_state.load_code ctx.db
                    inputs.bytecode_address).2.checkpoint.2).load_account ctx.db
                    inputs.target_address).2.touch
                      inputs.target_address).checkpoint_revert
                    ((ctx.journaled_state.load_code ctx.db
                      inputs.bytecode_address).2).journal.length) },
                ?_, hrb⟩
              unfold EvmContext.make_call_frame EvmContext.call_precompile
                ContextPrecompiles.call Gas.new Gas.record_cost
              rw [if_neg hdepth2]
              simp only [hvv, if_true]
              simp only [hpre, Option.map_some', hf]
              simp only [hle, if_false]
              rfl
        | error e =>
            cases e with
            | Error oog =>
                cases oog with
                | true =>
                    simp only [hf]
                    refine ⟨{ ctx with journaled_state :=
                        (((((ctx.journaled_state.load_code ctx.db
                          inputs.bytecode_address).2.checkpoint.2).load_account ctx.db
                          inputs.target_address).2.touch
                            inputs.target_address).checkpoint_revert
                          ((ctx.journaled_state.load_code ctx.db
                            inputs.bytecode_address).2).journal.length) },
                      ?_, hrb⟩
                    unfold EvmContext.make_call_frame EvmContext.call_precompile
                      ContextPrecompiles.call Gas.new Gas.record_cost
                    rw [if_neg hdepth2]
                    simp only [hvv, if_true]
                    simp only [hpre, Option.map_some', hf]
                    rfl
                | false =>
                    simp only [hf]
                    refine ⟨{ ctx with journaled_state :=
                        (((((ctx.journaled_state.load_code ctx.db
                          inputs.bytecode_address).2.checkpoint.2).load_account ctx.db
                          inputs.target_address).2.touch
                            inputs.target_address).checkpoint_revert
                          ((ctx.journaled_state.load_code ctx.db
                            inputs.bytecode_address).2).journal.length) },
                      ?_, hrb⟩
                    unfold EvmContext.make_call_frame EvmContext.call_precompile
                      ContextPrecompiles.call Gas.new Gas.record_cost
                    rw [if_neg hdepth2]
                    simp only [hvv, if_true]
                    simp only [hpre, Option.map_some', hf]
                    rfl
            | Fatal msg =>
                simp only [hf]
                unfold EvmContext.make_call_frame EvmContext.call_precompile
                  ContextPrecompiles.call Gas.new Gas.record_cost
                rw [if_neg hdepth2]
                simp only [hvv, if_true]
                simp only [hpre, Option.map_some', hf]
      · have hvalv : v ≤ stateBalance ctx.journaled_state.state ctx.db
            inputs.caller := by
          have h1 := hval
          simp only [transferOk, hvv] at h1
          exact h1
        have hguard : ¬ stateBalance ((ctx.journaled_state.load_code ctx.db
            inputs.bytecode_address).2.checkpoint.2).state ctx.db inputs.caller < v := by
          show ¬ stateBalance ((ctx.journaled_state.load_code ctx.db
            inputs.bytecode_address).2).state ctx.db inputs.caller < v
          rw [hb1 inputs.caller]
          exact Nat.not_lt.mpr hvalv
        obtain ⟨htr1, htrd, htrjf, htrb⟩ := transfer_success
          ((ctx.journaled_state.load_code ctx.db
            inputs.bytecode_address).2.checkpoint.2)
          ctx.db inputs.caller inputs.target_address v hguard
        obtain ⟨es, hesj, hesf⟩ := htrjf
          ((ctx.journaled_state.load_code ctx.db inputs.bytecode_address).2).journal
          [] rfl
        have hj3d : ((((ctx.journaled_state.load_code ctx.db
              inputs.bytecode_address).2.checkpoint.2).transfer ctx.db inputs.caller
              inputs.target_address v).2).depth
            = ((ctx.journaled_state.load_code ctx.db
                inputs.bytecode_address).2).depth + 1 := htrd
        have hrevb : ∀ a, stateBalance (((([] ++ es) ++
              [JournalEntry.BalanceTransfer inputs.caller inputs.target_address
                v]).reverse).foldl revertEntry
              ((((ctx.journaled_state.load_code ctx.db
                inputs.bytecode_address).2.checkpoint.2).transfer ctx.db inputs.caller
                inputs.target_address v).2).state) ctx.db a
            = stateBalance ((ctx.journaled_state.load_code ctx.db
                inputs.bytecode_address).2).state ctx.db a := by
          intro a
          have hfr : ((([] : List JournalEntry) ++ es) ++
              [JournalEntry.BalanceTransfer inputs.caller inputs.target_address
                v]).reverse
              = JournalEntry.BalanceTransfer inputs.caller inputs.target_address v
                :: es.reverse := by
            simp
          rw [hfr, List.foldl_cons]
          rw [stateBalance_foldl_flags es.reverse _ ctx.db a
            (fun e he => hesf e (List.mem_reverse.mp he))]
          exact htrb a
        have hrb := revertedBack_build ctx
          ((ctx.journaled_state.load_code ctx.db inputs.bytecode_address).2)
          ((((ctx.journaled_state.load_code ctx.db
            inputs.bytecode_address).2.checkpoint.2).transfer ctx.db inputs.caller
            inputs.target_address v).2)
          (([] ++ es) ++
            [JournalEntry.BalanceTransfer inputs.caller inputs.target_address v])
          hesj hj3d hrevb hd1 hl1 hb1
        have hcb := committedBack_build ctx
          ((ctx.journaled_state.load_code ctx.db inputs.bytecode_address).2)
          ((((ctx.journaled_state.load_code ctx.db
            inputs.bytecode_address).2.checkpoint.2).transfer ctx.db inputs.caller
            inputs.target_address v).2)
          (([] ++ es) ++
            [JournalEntry.BalanceTransfer inputs.caller inputs.target_address v])
          hesj hj3d hjne1 hd1 hl1
        cases hf : f inputs.input inputs.gas_limit with
        | ok output =>
            simp only [hf]
            by_cases hle : output.gas_used ≤ inputs.gas_limit
            · rw [if_pos hle]
              refine ⟨{ ctx with journaled_state :=
                  (((((ctx.journaled_state.load_code ctx.db
                    inputs.bytecode_address).2.checkpoint.2).transfer ctx.db
                    inputs.caller inputs.target_address v).2).checkpoint_commit) },
                ?_, hcb.1, hcb.2⟩
              unfold EvmContext.make_call_frame EvmContext.call_precompile
                ContextPrecompiles.call Gas.new Gas.record_cost
              rw [if_neg hdepth2]
              simp only [hvv]
              rw [if_neg hv0]
              simp only [htr1]
              simp only [hpre, Option.map_some', hf]
              simp only [hle, if_true]
              rfl
            · rw [if_neg hle]
              refine ⟨{ ctx with journaled_state :=
                  (((((ctx.journaled_state.load_code ctx.db
                    inputs.bytecode_address).2.checkpoint.2).transfer ctx.db
                    inputs.caller inputs.target_address v).2).checkpoint_revert
                    ((ctx.journaled_state.load_code ctx.db
                      inputs.bytecode_address).2).journal.length) },
                ?_, hrb⟩
              unfold EvmContext.make_call_frame EvmContext.call_precompile
                ContextPrecompiles.call Gas.new Gas.record_cost
              rw [if_neg hdepth2]
              simp only [hvv]
              rw [if_neg hv0]
              simp only [htr1]
              simp only [hpre, Option.map_some', hf]
              simp only [hle, if_false]
              rfl
        | error e =>
            cases e with
            | Error oog =>
                cases oog with
                | true =>
                    simp only [hf]
                    refine ⟨{ ctx with journaled_state :=
                        (((((ctx.journaled_state.load_code ctx.db
                          inputs.bytecode_address).2.checkpoint.2).transfer ctx.db
                          inputs.caller inputs.target_address v).2).checkpoint_revert
                          ((ctx.journaled_state.load_code ctx.db
                            inputs.bytecode_address).2).journal.length) },
                      ?_, hrb⟩
                    unfold EvmContext.make_call_frame EvmContext.call_precompile
                      ContextPrecompiles.call Gas.new Gas.record_cost
                    rw [if_neg hdepth2]
                    simp only [hvv]
                    rw [if_neg hv0]
                    simp only [htr1]
                    simp only [hpre, Option.map_some', hf]
                    rfl
                | false =>
                    simp only [hf]
                    refine ⟨{ ctx with journaled_state :=
                        (((((ctx.journaled_state.load_code ctx.db
                          inputs.bytecode_address).2.checkpoint.2).transfer ctx.db
                          inputs.caller inputs.target_address v).2).checkpoint_revert
                          ((ctx.journaled_state.load_code ctx.db
                            inputs.bytecode_address).2).journal.length) },
                      ?_, hrb⟩
                    unfold EvmContext.make_call_frame EvmContext.call_precompile
                      ContextPrecompiles.call Gas.new Gas.record_cost
                    rw [if_neg hdepth2]
                    simp only [hvv]
                    rw [if_neg hv0]
                    simp only [htr1]
                    simp only [hpre, Option.map_some', hf]
                    rfl
            | Fatal msg =>
                simp only [hf]
                unfold EvmContext.make_call_frame EvmContext.call_precompile
                  ContextPrecompiles.call Gas.new Gas.record_cost
                rw [if_neg hdepth2]
                simp only [hvv]
                rw [if_neg hv0]
                simp only [htr1]
                simp only [hpre, Option.map_some', hf]

/-- C3 witness: the precompile theorem applied to a registry mapping
address 1 to a handler that uses 3 gas and returns one byte, under a
10-gas call. -/
theorem make_call_frame_precompile_witness :
    ∃ ctx2, c3ctx.make_call_frame c3inputs = Except.ok (ctx2,
        FrameOrResult.Result
          { result := InstructionResult.Return,
            gas := { limit := 10, remaining := 7 },
            output := [7] }
          (0, 0)) ∧
      ctx2.journaled_state.depth = c3ctx.journaled_state.depth ∧
      ctx2.journaled_state.journal.length = c3ctx.journaled_state.journal.length :=
  make_call_frame_precompile c3ctx c3inputs c3f rfl (by decide) (by decide) True.intro

theorem lookupU_insertU_self (l : List (Nat × Nat)) (k v : Nat) :
    lookupU (insertU l k v) k = some v := by
  induction l with
  | nil => simp [insertU, lookupU]
  | cons p rest ih =>
      by_cases hk : p.1 = k
      · simp [insertU, hk, lookupU]
      · simp [insertU, hk, lookupU, ih]

theorem allSpecIds_complete : ∀ s : SpecId, s ∈ allSpecIds := by decide

/-- C5: in both the L1 and the L2 registry, enabled(a, b) holds exactly
when the discriminant of a is at least that of b, and the relation is
reflexive, antisymmetric, transitive and total with maximum LATEST. -/
theorem specid_enabled_total_order :
    (∀ a b : SpecId, SpecId.enabled a b = true ↔ b.toU8 ≤ a.toU8) ∧
    (∀ a : SpecId, SpecId.enabled a a = true) ∧
    (∀ a b : SpecId, SpecId.enabled a b = true → SpecId.enabled b a = true →
      a = b) ∧
    (∀ a b c : SpecId, SpecId.enabled a b = true → SpecId.enabled b c = true →
      SpecId.enabled a c = true) ∧
    (∀ a b : SpecId, SpecId.enabled a b = true ∨ SpecId.enabled b a = true) ∧
    (∀ a : SpecId, SpecId.enabled SpecId.LATEST a = true) ∧
    (∀ a b : OpSpecId, OpSpecId.enabled a b = true ↔ b.toU8 ≤ a.toU8) ∧
    (∀ a : OpSpecId, OpSpecId.enabled a a = true) ∧
    (∀ a b : OpSpecId, OpSpecId.enabled a b = true → OpSpecId.enabled b a = true →
      a = b) ∧
    (∀ a b c : OpSpecId, OpSpecId.enabled a b = true →
      OpSpecId.enabled b c = true → OpSpecId.enabled a c = true) ∧
    (∀ a b : OpSpecId, OpSpecId.enabled a b = true ∨ OpSpecId.enabled b a = true) ∧
    (∀ a : OpSpecId, OpSpecId.enabled OpSpecId.LATEST a = true) := by
  refine ⟨?_, ?_, ?_, ?_, ?_, ?_, ?_, ?_, ?_, ?_, ?_, ?_⟩
  · intro a b
    simp [SpecId.enabled]
  · intro a
    simp [SpecId.enabled]
  · intro a b hab hba
    have h1 : b.toU8 ≤ a.toU8 := by simpa [SpecId.enabled] using hab
    have h2 : a.toU8 ≤ b.toU8 := by simpa [SpecId.enabled] using hba
    exact (by decide : ∀ x y : SpecId, x.toU8 = y.toU8 → x = y) a b
      (Nat.le_antisymm h2 h1)
  · intro a b c hab hbc
    have h1 : b.toU8 ≤ a.toU8 := by simpa [SpecId.enabled] using hab
    have h2 : c.toU8 ≤ b.toU8 := by simpa [SpecId.enabled] using hbc
    simp [SpecId.enabled]
    omega
  · intro a b
    simp [SpecId.enabled]
    omega
  · decide
  · intro a b
    simp [OpSpecId.enabled]
  · intro a
    simp [OpSpecId.enabled]
  · intro a b hab hba
    have h1 : b.toU8 ≤ a.toU8 := by simpa [OpSpecId.enabled] using hab
    have h2 : a.toU8 ≤ b.toU8 := by simpa [OpSpecId.enabled] using hba
    exact (by decide : ∀ x y : OpSpecId, x.toU8 = y.toU8 → x = y) a b
      (Nat.le_antisymm h2 h1)
  · intro a b c hab hbc
    have h1 : b.toU8 ≤ a.toU8 := by simpa [OpSpecId.enabled] using hab
    have h2 : c.toU8 ≤ b.toU8 := by simpa [OpSpecId.enabled] using hbc
    simp [OpSpecId.enabled]
    omega
  · intro a b
    simp [OpSpecId.enabled]
    omega
  · decide

/-- C5 witness: transitivity applied through CANCUN shows LATEST enables
SHANGHAI in the L1 registry. -/
theorem specid_enabled_total_order_witness :
    SpecId.enabled SpecId.LATEST SpecId.SHANGHAI = true :=
  specid_enabled_total_order.2.2.2.1 SpecId.LATEST SpecId.CANCUN SpecId.SHANGHAI
    (by decide) (by decide)

/-- C6 counterexample: FRONTIER_THAWING has a unique canonical display name
(the filter over all twenty variants keeps exactly one match), yet parsing
that name yields LATEST rather than FRONTIER_THAWING, so the round-trip of
the claim fails on it. -/
theorem specid_name_roundtrip_counterexample :
    (allSpecIds.filter
      (fun s => SpecId.name s == SpecId.name SpecId.FRONTIER_THAWING)).length = 1 ∧
    SpecId.fromName (SpecId.name SpecId.FRONTIER_THAWING) = SpecId.LATEST ∧
    SpecId.LATEST ≠ SpecId.FRONTIER_THAWING := by
  refine ⟨by decide, rfl, by decide⟩

/-- C6 (amended): the display-name round-trip holds for every L1 SpecId
except the four whose canonical names are missing from the parse table
(FRONTIER_THAWING, DAO_FORK, ARROW_GLACIER and GRAY_GLACIER parse to
LATEST); moreover any string that does not parse to LATEST is the canonical
name of the SpecId it parses to, so parsing any unknown string yields
LATEST. -/
theorem specid_name_roundtrip :
    (∀ s : SpecId, s ≠ SpecId.FRONTIER_THAWING → s ≠ SpecId.DAO_FORK →
      s ≠ SpecId.ARROW_GLACIER → s ≠ SpecId.GRAY_GLACIER →
      SpecId.fromName (SpecId.name s) = s) ∧
    (∀ str : String, SpecId.fromName str ≠ SpecId.LATEST →
      SpecId.name (SpecId.fromName str) = str) := by
  constructor
  · decide
  · intro str h
    unfold SpecId.fromName at h ⊢
    split at h <;> simp_all <;> rfl

/-- C6 witness: the amended round-trip at BERLIN. -/
theorem specid_name_roundtrip_witness :
    SpecId.fromName (SpecId.name SpecId.BERLIN) = SpecId.BERLIN :=
  specid_name_roundtrip.1 SpecId.BERLIN (by decide) (by decide) (by decide)
    (by decide)

/-- C7: the L2-to-L1 conversion maps BEDROCK and REGOLITH to MERGE, CANYON
to SHANGHAI and ECOTONE to CANCUN, and every hardfork shared with L1
(LATEST included) to the L1 variant bearing the same display name. -/
theorem op_specid_into_eth :
    OpSpecId.intoSpecId OpSpecId.BEDROCK = SpecId.MERGE ∧
    OpSpecId.intoSpecId OpSpecId.REGOLITH = SpecId.MERGE ∧
    OpSpecId.intoSpecId OpSpecId.CANYON = SpecId.SHANGHAI ∧
    OpSpecId.intoSpecId OpSpecId.ECOTONE = SpecId.CANCUN ∧
    (∀ s : OpSpecId, s ≠ OpSpecId.BEDROCK → s ≠ OpSpecId.REGOLITH →
      s ≠ OpSpecId.CANYON → s ≠ OpSpecId.ECOTONE →
      SpecId.name (OpSpecId.intoSpecId s) = OpSpecId.name s) := by
  refine ⟨rfl, rfl, rfl, rfl, by decide⟩

/-- C7 witness: the shared hardfork LATEST converts to the L1 variant of
the same name. -/
theorem op_specid_into_eth_witness :
    SpecId.name (OpSpecId.intoSpecId OpSpecId.LATEST) = OpSpecId.name OpSpecId.LATEST :=
  op_specid_into_eth.2.2.2.2 OpSpecId.LATEST (by decide) (by decide) (by decide)
    (by decide)

/-- C8 counterexample: with address 7 pre-warmed and an empty registry
installed, set_precompiles drops 7 from warm_preloaded_addresses — the
address set is replaced, not merged as the claim states. -/
theorem set_precompiles_counterexample :
    7 ∈ c8ctx.journaled_state.warm_preloaded_addresses ∧
    7 ∉ (c8ctx.set_precompiles
      { entries := [] }).journaled_state.warm_preloaded_addresses := by
  refine ⟨by decide, by decide⟩

/-- C8 (amended): set_precompiles replaces warm_preloaded_addresses with
exactly the addresses of the new registry (previously warm-preloaded
addresses not in the registry are discarded) and installs the registry;
the rest of the context is untouched. -/
theorem set_precompiles_replaces (ctx : EvmContext) (ps : ContextPrecompiles) :
    (ctx.set_precompiles ps).journaled_state.warm_preloaded_addresses
      = ps.addresses_set ∧
    (ctx.set_precompiles ps).precompiles = ps ∧
    (ctx.set_precompiles ps).journaled_state.state = ctx.journaled_state.state ∧
    (ctx.set_precompiles ps).journaled_state.journal = ctx.journaled_state.journal ∧
    (ctx.set_precompiles ps).journaled_state.depth = ctx.journaled_state.depth ∧
    (ctx.set_precompiles ps).db = ctx.db := by
  exact ⟨rfl, rfl, rfl, rfl, rfl, rfl⟩

/-- C9 counterexample: on a fresh dummy host the very first balance read —
the first touch of the queried account — reports is_cold = false, not the
is_cold = true that the claim requires of every read method. -/
theorem dummyhost_first_touch_counterexample :
    DummyHost.balance DummyHost.new 1 = some (0, false) ∧
    DummyHost.balance DummyHost.new 1 ≠ some (0, true) := by
  refine ⟨rfl, by decide⟩

/-- C9 (amended): the dummy host backs storage with an in-memory map keyed
by slot and treats every account as empty (zero balance, empty code,
KECCAK_EMPTY code hash); the account-level read methods always report
is_cold = false, while sload and sstore report is_cold = true exactly on
the first touch of a slot, every subsequent touch of the same slot
reporting false. -/
theorem dummyhost_reads (h : DummyHost) (a b : Address) (k v : Nat) :
    h.balance a = some (0, false) ∧
    h.code a = some ([], false) ∧
    h.code_hash a = some (KECCAK_EMPTY, false) ∧
    h.load_account a = some { is_cold := false, is_empty := false } ∧
    ((h.sload a k).1.2 = true ↔ lookupU h.storage k = none) ∧
    (((h.sload a k).2).sload b k).1.2 = false ∧
    ((h.sstore a k v).1.is_cold = true ↔ lookupU h.storage k = none) ∧
    (((h.sstore a k v).2).sload b k).1.2 = false ∧
    (∀ w, lookupU h.storage k = some w → (h.sload a k).1.1 = w) := by
  refine ⟨rfl, rfl, rfl, rfl, ?_, ?_, ?_, ?_, ?_⟩
  · unfold DummyHost.sload
    cases hk : lookupU h.storage k <;> simp [hk]
  · unfold DummyHost.sload
    cases hk : lookupU h.storage k with
    | some w => simp [hk]
    | none => simp [hk, lookupU_insertU_self]
  · unfold DummyHost.sstore
    cases hk : lookupU h.storage k <;> simp [hk]
  · unfold DummyHost.sstore DummyHost.sload
    cases hk : lookupU h.storage k <;> simp [hk, lookupU_insertU_self]
  · intro w hw
    unfold DummyHost.sload
    simp [hw]

/-- C9 witness: on a fresh host the first sload of slot 5 is cold. -/
theorem dummyhost_reads_witness :
    ((DummyHost.new.sload 0 5).1.2 = true ↔ lookupU DummyHost.new.storage 5 = none) ∧
    DummyHost.new.balance 1 = some (0, false) :=
  ⟨(dummyhost_reads DummyHost.new 0 0 5 0).2.2.2.2.1,
   (dummyhost_reads DummyHost.new 1 0 5 0).1⟩

/-- C10: the dummy host keys its persistent and transient storage by slot
index alone and ignores the address arguments: a store through one address
is read back, warm, through any other address. -/
theorem dummyhost_ignores_address (h : DummyHost) (a b : Address) (k v : Nat) :
    (((h.sstore a k v).2).sload b k).1 = (v, false) ∧
    (h.tstore a k v).tload b k = v := by
  constructor
  · unfold DummyHost.sstore DummyHost.sload
    cases hk : lookupU h.storage k <;> simp [hk, lookupU_insertU_self]
  · unfold DummyHost.tstore DummyHost.tload
    simp [lookupU_insertU_self]
